import Mathlib

/-!
Verification development for the Binance spot trading bot
(`src/order_manager.py`, `src/position_manager.py`, `src/main.py`).

Python floats are embedded as exact rationals (`ℚ`); `None`-able values
as `Option`; dictionaries keyed by symbol as association lists.  Each
definition mirrors one Python function and is named after it.
-/

namespace Bot

/-- A step/tick size as the decimal literal Python sees: value
`mant / 10 ^ exp`.  `str(step_size)` in Python prints the shortest
decimal form, which `stripZeros` reproduces. -/
structure Dec where
  mant : ℤ
  exp : ℕ
  deriving Repr, DecidableEq

/-- Strip trailing zero digits from the fractional part, mirroring
`str(step_size).split('.')[-1].rstrip('0')`:  while the fractional part
ends in `0` the mantissa loses a digit and the exponent drops. -/
def stripZeros : ℤ → ℕ → ℤ × ℕ
  | m, 0 => (m, 0)
  | m, e + 1 => if (10 : ℤ) ∣ m then stripZeros (m / 10) e else (m, e + 1)

/-- Rational value of the decimal. -/
def Dec.val (d : Dec) : ℚ := (d.mant : ℚ) / 10 ^ d.exp

/-- `len(str(step_size).split('.')[-1].rstrip('0'))`: the number of
fractional digits of the shortest decimal form. -/
def Dec.precision (d : Dec) : ℕ := (stripZeros d.mant d.exp).2

/-- Python's float `%` for a nonzero divisor: `a - b * floor(a / b)`
(the result carries the divisor's sign). -/
def pymod (a b : ℚ) : ℚ := a - b * ⌊a / b⌋

/-- Python 3 `round` to an integer: nearest, ties to even. -/
def roundHalfEven (x : ℚ) : ℤ :=
  if x - ⌊x⌋ < 1 / 2 then ⌊x⌋
  else if x - ⌊x⌋ > 1 / 2 then ⌊x⌋ + 1
  else if 2 ∣ ⌊x⌋ then ⌊x⌋ else ⌊x⌋ + 1

/-- Python 3 `round(x, p)` (exact-arithmetic model). -/
def roundTo (p : ℕ) (x : ℚ) : ℚ := (roundHalfEven (x * 10 ^ p) : ℚ) / 10 ^ p

/-- `OrderManager.round_step_size`:
`round(quantity - (quantity % step_size), precision)`. -/
def round_step_size (quantity : ℚ) (step_size : Dec) : ℚ :=
  roundTo step_size.precision (quantity - pymod quantity step_size.val)

/-- `OrderManager.round_price`:
`round(price - (price % tick_size), precision)`. -/
def round_price (price : ℚ) (tick_size : Dec) : ℚ :=
  roundTo tick_size.precision (price - pymod price tick_size.val)

lemma stripZeros_val : ∀ (e : ℕ) (m : ℤ),
    ((stripZeros m e).1 : ℚ) / 10 ^ (stripZeros m e).2 = (m : ℚ) / 10 ^ e := by
  intro e
  induction e with
  | zero => intro m; simp [stripZeros]
  | succ e ih =>
    intro m
    by_cases h : (10 : ℤ) ∣ m
    · obtain ⟨k, hk⟩ := h
      have h10 : (10 : ℤ) ∣ m := ⟨k, hk⟩
      have : stripZeros m (e + 1) = stripZeros (m / 10) e := by
        simp [stripZeros, h10]
      rw [this, ih]
      subst hk
      have : (10 : ℤ) * k / 10 = k := by omega
      rw [this]
      push_cast
      rw [pow_succ]
      field_simp
      ring
    · simp [stripZeros, h]

lemma roundHalfEven_intCast (z : ℤ) : roundHalfEven (z : ℚ) = z := by
  unfold roundHalfEven
  rw [Int.floor_intCast]
  simp

lemma roundTo_eq_self (p : ℕ) (x : ℚ) (h : ∃ z : ℤ, x * 10 ^ p = (z : ℚ)) :
    roundTo p x = x := by
  obtain ⟨z, hz⟩ := h
  unfold roundTo
  rw [hz, roundHalfEven_intCast]
  have h10 : ((10 : ℚ) ^ p) ≠ 0 := by positivity
  field_simp at hz ⊢
  linarith [hz]

/-- The core identity: subtracting the Python modulus leaves the largest
multiple of the step not exceeding the input, and rounding to the
step's own decimal precision keeps it unchanged. -/
lemma round_step_size_eq (q : ℚ) (s : Dec) :
    round_step_size q s = s.val * ⌊q / s.val⌋ := by
  unfold round_step_size pymod
  rw [show q - (q - Dec.val s * ⌊q / Dec.val s⌋) = Dec.val s * ⌊q / Dec.val s⌋ from by ring]
  apply roundTo_eq_self
  refine ⟨(stripZeros s.mant s.exp).1 * ⌊q / s.val⌋, ?_⟩
  have hv : ((stripZeros s.mant s.exp).1 : ℚ) / 10 ^ (stripZeros s.mant s.exp).2
      = (s.mant : ℚ) / 10 ^ s.exp := stripZeros_val s.exp s.mant
  have h10 : ((10 : ℚ) ^ (stripZeros s.mant s.exp).2) ≠ 0 := by positivity
  have hval : s.val * 10 ^ (Dec.precision s) = ((stripZeros s.mant s.exp).1 : ℚ) := by
    unfold Dec.val Dec.precision
    rw [← hv]
    field_simp
  push_cast
  calc Dec.val s * (⌊q / Dec.val s⌋ : ℚ) * 10 ^ Dec.precision s
      = (Dec.val s * 10 ^ Dec.precision s) * (⌊q / Dec.val s⌋ : ℚ) := by ring
    _ = ((stripZeros s.mant s.exp).1 : ℚ) * (⌊q / Dec.val s⌋ : ℚ) := by rw [hval]

lemma round_price_eq (q : ℚ) (s : Dec) :
    round_price q s = s.val * ⌊q / s.val⌋ :=
  round_step_size_eq q s

/-! ## Order manager (`src/order_manager.py`) -/

/-- One entry of an order's `fills` list. -/
structure Fill where
  price : ℚ
  qty : ℚ
  deriving Repr, DecidableEq

/-- One record returned by the trade-history endpoint (`get_my_trades`). -/
structure Trade where
  orderId : ℕ
  price : ℚ
  qty : ℚ
  deriving Repr, DecidableEq

/-- An order-status record as read by the code: `status`,
`get('executedQty', 0)`, `get('fills', [])`, `get('price', 0)`. -/
structure OrderStatus where
  status : String
  executedQty : ℚ
  fills : List Fill
  price : ℚ
  deriving Repr, DecidableEq

/-- The reconciled tuple `place_limit_buy` returns on success. -/
structure Reconciled where
  symbol : String
  price : ℚ
  quantity : ℚ
  order_id : ℕ
  deriving Repr, DecidableEq

/-- `OrderManager._get_trades_for_order_with_retry`: up to `max_retries`
client calls; each element of `attempts` is one call's response (an
exception during an attempt behaves like an empty response).  The first
attempt whose response contains trades matching `order_id` is returned;
otherwise the empty list. -/
def _get_trades_for_order_with_retry (attempts : List (List Trade)) (order_id : ℕ) :
    List Trade :=
  match attempts with
  | [] => []
  | a :: rest =>
    let order_trades := a.filter (fun t => t.orderId == order_id)
    if order_trades.isEmpty then _get_trades_for_order_with_retry rest order_id
    else order_trades

/-- `OrderManager._calculate_avg_price_from_trades`: volume-weighted
average price and total quantity, or `(fallback_price, 0)` when there
are no trades or their total quantity is not positive. -/
def _calculate_avg_price_from_trades (trades : List Trade) (fallback_price : ℚ) :
    ℚ × ℚ :=
  if trades.isEmpty then (fallback_price, 0)
  else
    let total_cost := (trades.map (fun t => t.price * t.qty)).sum
    let total_qty := (trades.map (fun t => t.qty)).sum
    if 0 < total_qty then (total_cost / total_qty, total_qty)
    else (fallback_price, 0)

/-- Volume-weighted average over a `fills` list (the inline
`sum(price*qty)/sum(qty)` expression used at each return site). -/
def fillsAvg (fills : List Fill) : ℚ :=
  (fills.map (fun f => f.price * f.qty)).sum / (fills.map (fun f => f.qty)).sum

/-- The recurring average-price computation: fills if present, else the
status record's `price`; if that is zero, fall back to the
trade-history reconciler with the limit price as last resort. -/
def statusAvgPrice (attempts : List (List Trade)) (order_id : ℕ) (limit_price : ℚ)
    (st : OrderStatus) : ℚ :=
  let avg := if st.fills.isEmpty then st.price else fillsAvg st.fills
  if avg = 0 then
    (_calculate_avg_price_from_trades
      (_get_trades_for_order_with_retry attempts order_id) limit_price).1
  else avg

/-- The LOT_SIZE filter triple returned by `get_lot_size_filter`. -/
structure LotFilter where
  minQty : ℚ
  maxQty : ℚ
  stepSize : Dec
  deriving Repr, DecidableEq

/-- The PRICE_FILTER pair returned by `get_price_filter`. -/
structure PriceFilter where
  tickSize : Dec
  minPrice : ℚ
  deriving Repr, DecidableEq

/-- `OrderManager.calculate_quantity`.  `lot = none` models a missing
LOT_SIZE filter; `minQty = 0` is the other falsy case of
`if not min_qty`. -/
def calculate_quantity (lot : Option LotFilter) (price amount_usd : ℚ) : Option ℚ :=
  match lot with
  | none => none
  | some l =>
    if l.minQty = 0 then none
    else
      let quantity := amount_usd / price
      let quantity := round_step_size quantity l.stepSize
      if quantity < l.minQty then none
      else if l.maxQty ≠ 0 ∧ l.maxQty < quantity then some l.maxQty
      else some quantity

/-- Exchange responses consumed by one run of `place_limit_buy`.
The client is a remote oracle; each field is the response to one of the
call sites in the source.  `polls` is the sequence of `get_order_status`
responses inside the 30-second poll loop (list exhaustion = timeout);
`order_ack = some 0` models an acknowledgement without a truthy
`orderId`.  `trade_attempts` is consumed by every call to
`_get_trades_for_order_with_retry` (the `order_time` window only shapes
the raw client query, which this list already abstracts). -/
structure BuyEnv where
  current_price : Option ℚ
  price_filter : Option PriceFilter
  lot_filter : Option LotFilter
  order_ack : Option ℕ
  polls : List (Option OrderStatus)
  retry_status : Option OrderStatus
  final_status : Option OrderStatus
  trade_attempts : List (List Trade)
  deriving Repr

/-- `status in ['CANCELED', 'REJECTED', 'EXPIRED']`. -/
def isCancelStatus (s : String) : Bool :=
  s == "CANCELED" || s == "REJECTED" || s == "EXPIRED"

/-- The `CANCELED/REJECTED/EXPIRED` branch of `place_limit_buy`
(lines 180-229): re-check the status once; if executed quantity is
still zero consult the trade history; return a tuple only from a
positive executed quantity, else `None`. -/
def canceledBranch (env : BuyEnv) (symbol : String) (limit_price : ℚ) (order_id : ℕ)
    (st : OrderStatus) : Option Reconciled :=
  if st.executedQty = 0 then
    let executed1 := match env.retry_status with
      | some r => r.executedQty
      | none => st.executedQty
    if executed1 = 0 then
      let order_trades := _get_trades_for_order_with_retry env.trade_attempts order_id
      if order_trades.isEmpty then none
      else
        let reconciled := _calculate_avg_price_from_trades order_trades limit_price
        if 0 < reconciled.2 then some ⟨symbol, reconciled.1, reconciled.2, order_id⟩
        else none
    else if 0 < executed1 then
      some ⟨symbol, statusAvgPrice env.trade_attempts order_id limit_price st,
            executed1, order_id⟩
    else none
  else if 0 < st.executedQty then
    some ⟨symbol, statusAvgPrice env.trade_attempts order_id limit_price st,
          st.executedQty, order_id⟩
  else none

/-- The timeout tail of `place_limit_buy` (lines 231-298): cancel, read
the status once more, and reconcile conservatively. -/
def timeoutTail (env : BuyEnv) (symbol : String) (limit_price : ℚ) (order_id : ℕ) :
    Option Reconciled :=
  match env.final_status with
  | none =>
    let order_trades := _get_trades_for_order_with_retry env.trade_attempts order_id
    if order_trades.isEmpty then none
    else
      let reconciled := _calculate_avg_price_from_trades order_trades limit_price
      if 0 < reconciled.2 then some ⟨symbol, reconciled.1, reconciled.2, order_id⟩
      else none
  | some fs =>
    if fs.executedQty = 0 then
      let order_trades := _get_trades_for_order_with_retry env.trade_attempts order_id
      if order_trades.isEmpty then none
      else
        let reconciled := _calculate_avg_price_from_trades order_trades limit_price
        if 0 < reconciled.2 then some ⟨symbol, reconciled.1, reconciled.2, order_id⟩
        else none
    else if 0 < fs.executedQty then
      some ⟨symbol, statusAvgPrice env.trade_attempts order_id limit_price fs,
            fs.executedQty, order_id⟩
    else none

/-- The poll loop of `place_limit_buy` (lines 147-229): one list element
per iteration (`none` = unavailable status, `continue`); exhaustion is
the 30-second timeout. -/
def pollLoop (env : BuyEnv) (symbol : String) (limit_price : ℚ) (order_id : ℕ) :
    List (Option OrderStatus) → Option Reconciled
  | [] => timeoutTail env symbol limit_price order_id
  | none :: rest => pollLoop env symbol limit_price order_id rest
  | some st :: rest =>
    if st.status == "FILLED" then
      some ⟨symbol, statusAvgPrice env.trade_attempts order_id limit_price st,
            st.executedQty, order_id⟩
    else if isCancelStatus st.status then
      canceledBranch env symbol limit_price order_id st
    else pollLoop env symbol limit_price order_id rest

/-- `OrderManager.place_limit_buy` over one exchange interaction. -/
def place_limit_buy (env : BuyEnv) (symbol : String) (amount_usd : ℚ) :
    Option Reconciled :=
  match env.current_price with
  | none => none
  | some current_price =>
    if current_price = 0 then none
    else
      match env.price_filter with
      | none => none
      | some pf =>
        if pf.tickSize.val = 0 then none
        else
          let limit_price := round_price (current_price * (998 / 1000)) pf.tickSize
          match calculate_quantity env.lot_filter limit_price amount_usd with
          | none => none
          | some quantity =>
            if quantity = 0 then none
            else
              match env.order_ack with
              | none => none
              | some order_id =>
                if order_id = 0 then none
                else pollLoop env symbol limit_price order_id env.polls

/-! ### `close_position` -/

/-- A `get_asset_total_balance` response; the client computes
`total = free + locked`. -/
structure Balance where
  free : ℚ
  locked : ℚ
  deriving Repr, DecidableEq

/-- `total = free + locked` as returned by the client. -/
def Balance.total (b : Balance) : ℚ := b.free + b.locked

/-- Return value of `close_position`: an executed sell's price, one of
the three string sentinels, or Python `None`. -/
inductive CloseOutcome
  | price (p : ℚ)
  | phantom
  | belowMin
  | zeroQty
  | nil
  deriving Repr, DecidableEq

/-- Exchange responses consumed by one (exception-free) run of
`close_position`.  `balance2` is the re-read after
`cancel_all_open_orders` (consulted only when the first read shows a
locked balance); `sell_order = none` models a falsy response to the
market sell; `spot_price` is the `get_symbol_price` fallback used when
the sell reports no fills. -/
structure CloseEnv where
  balance1 : Balance
  lot_filter : Option LotFilter
  balance2 : Balance
  sell_order : Option (List Fill)
  spot_price : Option ℚ
  deriving Repr

/-- The `minQty` the code tests with `if min_qty and ...`; `0` stands
for both a missing filter and a zero (falsy) minimum. -/
def lotMin : Option LotFilter → ℚ
  | none => 0
  | some l => l.minQty

/-- Lines 358-378 of `close_position`: the zero-quantity guard and the
market sell itself.  The `Bool` records whether
`create_market_sell_order` was invoked. -/
def closeFinishSell (env : CloseEnv) (quantity : ℚ) : CloseOutcome × Bool :=
  if quantity ≤ 0 then (.zeroQty, false)
  else
    match env.sell_order with
    | none => (.nil, true)
    | some fills =>
      if fills.isEmpty then
        match env.spot_price with
        | none => (.nil, true)
        | some p => (.price p, true)
      else (.price (fillsAvg fills), true)

/-- Lines 340-378 of `close_position`: free-balance haircut,
quantization against the lot filter, minimum checks, then the sell. -/
def closeAfterBalance (env : CloseEnv) (free total quantity : ℚ) :
    CloseOutcome × Bool :=
  let q1 := if free < quantity * (99 / 100) then free else quantity
  match env.lot_filter with
  | none => closeFinishSell env q1
  | some l =>
    if l.minQty = 0 then closeFinishSell env q1
    else
      let q2 := round_step_size q1 l.stepSize
      if q2 < l.minQty then
        if l.minQty ≤ total then (.nil, false) else (.belowMin, false)
      else closeFinishSell env q2

/-- `OrderManager.close_position` (exception-free run), paired with a
flag recording whether any market sell order was submitted. -/
def close_position (env : CloseEnv) (quantity : ℚ) : CloseOutcome × Bool :=
  if lotMin env.lot_filter ≠ 0 ∧ env.balance1.total < lotMin env.lot_filter then
    (.phantom, false)
  else if 0 < env.balance1.locked then
    if 0 < env.balance2.locked then (.nil, false)
    else closeAfterBalance env env.balance2.free env.balance2.total quantity
  else closeAfterBalance env env.balance1.free env.balance1.total quantity

/-! ## Position manager (`src/position_manager.py`) -/

/-- A UTC instant, reduced to the parts the code inspects:
`now.date()` (as a day index) and `now.hour`. -/
structure UtcTime where
  day : ℤ
  hour : ℕ
  deriving Repr, DecidableEq

/-- One position record of the ledger (`position_data` in
`add_position`). -/
structure Position where
  symbol : String
  side : String
  entry_price : ℚ
  quantity : ℚ
  entry_time : UtcTime
  order_id : Option ℕ
  highest_price : Option ℚ
  lowest_price : Option ℚ
  stop_loss : ℚ
  trailing_stop : Option ℚ
  initial_stop_percent : ℚ
  deriving Repr, DecidableEq

/-- The `daily_pnl` record. -/
structure DailyPnl where
  reset_date : UtcTime
  realized_pnl : ℚ
  unrealized_pnl : ℚ
  total_pnl : ℚ
  trades_count : ℕ
  wins : ℕ
  losses : ℕ
  deriving Repr, DecidableEq

/-- One line of `logs/trade_history.log` (`log_trade`). -/
structure TradeRecord where
  symbol : String
  side : String
  entry_time : UtcTime
  exit_time : UtcTime
  entry_price : ℚ
  exit_price : ℚ
  quantity : ℚ
  profit_percent : ℚ
  profit_usd : ℚ
  reason : Option String
  deriving Repr, DecidableEq

/-- The configuration values `PositionManager.__init__` reads. -/
structure RiskConfig where
  max_positions : ℕ
  daily_loss_limit_percent : ℚ
  daily_profit_protection_percent : ℚ
  protection_mode_behavior : String
  reset_hour_utc : ℕ
  atr_multiplier : ℚ
  initial_percent : ℚ
  deriving Repr, DecidableEq

/-- In-memory state of a `PositionManager`: the positions dictionary
(symbol-keyed, unique keys), the daily P&L record, and the append-only
trade-history log. -/
structure PMState where
  positions : List (String × Position)
  daily : DailyPnl
  trade_log : List TradeRecord
  deriving Repr, DecidableEq

/-- `symbol in self.positions` / `self.positions[symbol]`. -/
def lookupPos (ps : List (String × Position)) (s : String) : Option Position :=
  ps.lookup s

/-- `del self.positions[symbol]`. -/
def erasePos (ps : List (String × Position)) (s : String) : List (String × Position) :=
  ps.filter (fun e => e.1 ≠ s)

/-- `self.positions[symbol] = p` (dictionary assignment overwrites). -/
def insertPos (ps : List (String × Position)) (s : String) (p : Position) :
    List (String × Position) :=
  (s, p) :: erasePos ps s

/-- `PositionManager._should_reset_daily_pnl` for a record that has a
`reset_date`: a strictly later UTC date and an hour at or past the
configured boundary. -/
def _should_reset_daily_pnl (daily : DailyPnl) (now : UtcTime) (reset_hour_utc : ℕ) :
    Bool :=
  if daily.reset_date.day < now.day then
    if reset_hour_utc ≤ now.hour then true else false
  else false

/-- `PositionManager._reset_daily_pnl`: fresh timestamp, zeroed
counters (the durable write is best-effort and swallows errors). -/
def _reset_daily_pnl (now : UtcTime) : DailyPnl :=
  { reset_date := now, realized_pnl := 0, unrealized_pnl := 0, total_pnl := 0,
    trades_count := 0, wins := 0, losses := 0 }

/-- `PositionManager.load_daily_pnl`: `stored = none` covers a missing,
unreadable, or `reset_date`-less file (all of which reset). -/
def load_daily_pnl (stored : Option DailyPnl) (now : UtcTime) (reset_hour_utc : ℕ) :
    DailyPnl :=
  match stored with
  | none => _reset_daily_pnl now
  | some d =>
    if _should_reset_daily_pnl d now reset_hour_utc then _reset_daily_pnl now else d

/-- `PositionManager.is_in_protection_mode`. -/
def is_in_protection_mode (cfg : RiskConfig) (daily : DailyPnl) : Bool :=
  if cfg.protection_mode_behavior == "disabled" then false
  else decide (cfg.daily_profit_protection_percent ≤ daily.total_pnl)

/-- `PositionManager.has_hit_daily_loss_limit`. -/
def has_hit_daily_loss_limit (cfg : RiskConfig) (daily : DailyPnl) : Bool :=
  decide (daily.total_pnl ≤ -cfg.daily_loss_limit_percent)

/-- Reasons returned by `can_open_new_position` (the code formats them
as strings; only their identity matters here). -/
inductive CanOpenReason
  | alreadyHavePosition
  | maxPositionsReached
  | protectionMode
  | dailyLossLimit
  | ok
  deriving Repr, DecidableEq

/-- `PositionManager.can_open_new_position`. -/
def can_open_new_position (cfg : RiskConfig) (st : PMState) (symbol : String) :
    Bool × CanOpenReason :=
  if (lookupPos st.positions symbol).isSome then (false, .alreadyHavePosition)
  else if cfg.max_positions ≤ st.positions.length then (false, .maxPositionsReached)
  else if is_in_protection_mode cfg st.daily then (false, .protectionMode)
  else if has_hit_daily_loss_limit cfg st.daily then (false, .dailyLossLimit)
  else (true, .ok)

/-- `PositionManager.add_position`.  `save_ok` is whether
`save_positions` succeeds; on failure the code executes
`del self.positions[symbol]` and raises, so the pair carries the
post-call state and the error. -/
def add_position (cfg : RiskConfig) (st : PMState) (symbol : String)
    (entry_price quantity : ℚ) (side : String) (order_id : Option ℕ)
    (initial_stop_percent : Option ℚ) (now : UtcTime) (save_ok : Bool) :
    PMState × Option String :=
  let pct := initial_stop_percent.getD cfg.initial_percent
  let stop_loss :=
    if side == "BUY" then entry_price * (1 - pct / 100)
    else entry_price * (1 + pct / 100)
  let pos : Position :=
    { symbol := symbol, side := side, entry_price := entry_price,
      quantity := quantity, entry_time := now, order_id := order_id,
      highest_price := if side == "BUY" then some entry_price else none,
      lowest_price := if side == "SELL" then some entry_price else none,
      stop_loss := stop_loss, trailing_stop := none,
      initial_stop_percent := pct }
  let ps1 := insertPos st.positions symbol pos
  if save_ok then ({ st with positions := ps1 }, none)
  else ({ st with positions := erasePos ps1 symbol },
        some ("Position add failed for " ++ symbol))

/-- The per-position body of `PositionManager.update_trailing_stop`
(lines 243-286).  `if atr_value and atr_value > 0` is truthiness plus
positivity, i.e. simply `0 < a`. -/
def update_trailing_stop_pos (cfg : RiskConfig) (position : Position)
    (current_price : ℚ) (atr_value : Option ℚ) : Position :=
  let old_stop := position.trailing_stop
  let stop_distance :=
    match atr_value with
    | some a =>
      if 0 < a then a * cfg.atr_multiplier
      else current_price * (position.initial_stop_percent / 100)
    | none => current_price * (position.initial_stop_percent / 100)
  if position.side == "BUY" then
    let pos1 :=
      if position.highest_price.getD position.entry_price < current_price then
        { position with highest_price := some current_price }
      else position
    let new_trailing_stop := current_price - stop_distance
    match old_stop with
    | none => { pos1 with trailing_stop := some new_trailing_stop }
    | some o =>
      if o < new_trailing_stop then { pos1 with trailing_stop := some new_trailing_stop }
      else pos1
  else
    let pos1 :=
      if current_price < position.lowest_price.getD position.entry_price then
        { position with lowest_price := some current_price }
      else position
    let new_trailing_stop := current_price + stop_distance
    match old_stop with
    | none => { pos1 with trailing_stop := some new_trailing_stop }
    | some o =>
      if new_trailing_stop < o then { pos1 with trailing_stop := some new_trailing_stop }
      else pos1

/-- `PositionManager.update_trailing_stop` (a failed save is only
logged, the in-memory update stands). -/
def update_trailing_stop (cfg : RiskConfig) (st : PMState) (symbol : String)
    (current_price : ℚ) (atr_value : Option ℚ) : PMState :=
  match lookupPos st.positions symbol with
  | none => st
  | some position =>
    let pos2 := update_trailing_stop_pos cfg position current_price atr_value
    { st with positions := insertPos st.positions symbol pos2 }

/-- `PositionManager.remove_position`.  `close_price` is truthy only
when present and nonzero; `save_ok` is whether `save_positions`
succeeds — on failure the position entry alone is restored
(`self.positions[symbol] = position_backup`) and the call raises. -/
def remove_position (st : PMState) (symbol : String) (close_price : Option ℚ)
    (reason : Option String) (now : UtcTime) (save_ok : Bool) :
    PMState × Option String :=
  match lookupPos st.positions symbol with
  | none => (st, none)
  | some position =>
    let st1 :=
      match close_price with
      | none => st
      | some c =>
        if c = 0 then st
        else
          let profit_percent :=
            if position.side == "BUY" then
              (c - position.entry_price) / position.entry_price * 100
            else (position.entry_price - c) / position.entry_price * 100
          let profit_usd :=
            if position.side == "BUY" then (c - position.entry_price) * position.quantity
            else (position.entry_price - c) * position.quantity
          let d := st.daily
          let d1 : DailyPnl :=
            { d with
              realized_pnl := d.realized_pnl + profit_usd,
              trades_count := d.trades_count + 1,
              wins := if 0 < profit_usd then d.wins + 1 else d.wins,
              losses := if 0 < profit_usd then d.losses else d.losses + 1,
              total_pnl := d.total_pnl + profit_percent }
          let rcd : TradeRecord :=
            { symbol := symbol, side := position.side,
              entry_time := position.entry_time, exit_time := now,
              entry_price := position.entry_price, exit_price := c,
              quantity := position.quantity, profit_percent := profit_percent,
              profit_usd := profit_usd, reason := reason }
          { st with daily := d1, trade_log := st.trade_log ++ [rcd] }
    let ps2 := erasePos st1.positions symbol
    if save_ok then ({ st1 with positions := ps2 }, none)
    else ({ st1 with positions := insertPos ps2 symbol position },
          some ("Position removal failed for " ++ symbol))

/-! ## Main-loop close handling (`src/main.py` lines 144-153) -/

/-- What the trading loop does with a `close_position` result: the
three string sentinels purge the ledger entry at the current market
price with a `_PHANTOM`-suffixed reason; a truthy price closes
normally; `None` (and a zero price, which is falsy) leaves the position
for retry.  A raised save failure propagates to the loop's handler, so
the state delivered by `remove_position` stands either way. -/
def handle_close_result (st : PMState) (symbol : String) (current_price : ℚ)
    (res : CloseOutcome) (reason : String) (now : UtcTime) (save_ok : Bool) :
    PMState :=
  match res with
  | .phantom => (remove_position st symbol (some current_price)
      (some (reason ++ "_PHANTOM")) now save_ok).1
  | .belowMin => (remove_position st symbol (some current_price)
      (some (reason ++ "_PHANTOM")) now save_ok).1
  | .zeroQty => (remove_position st symbol (some current_price)
      (some (reason ++ "_PHANTOM")) now save_ok).1
  | .price p =>
    if p = 0 then st
    else (remove_position st symbol (some p) (some reason) now save_ok).1
  | .nil => st

/-! ## Helper lemmas -/

lemma lookupPos_insert (ps : List (String × Position)) (s : String) (p : Position) :
    lookupPos (insertPos ps s p) s = some p := by
  simp [insertPos, lookupPos, List.lookup]

lemma lookupPos_erase (ps : List (String × Position)) (s : String) :
    lookupPos (erasePos ps s) s = none := by
  induction ps with
  | nil => rfl
  | cons e t ih =>
    by_cases h : e.1 = s
    · have hdrop : erasePos (e :: t) s = erasePos t s := by
        simp [erasePos, List.filter_cons, h]
      rw [hdrop]; exact ih
    · have hkeep : erasePos (e :: t) s = e :: erasePos t s := by
        simp [erasePos, List.filter_cons, h]
      have hne : (s == e.1) = false := by
        simp [beq_eq_false_iff_ne, Ne.symm h]
      rw [hkeep]
      simpa [lookupPos, List.lookup, hne] using ih

lemma erasePos_of_lookup_none (ps : List (String × Position)) (s : String)
    (h : lookupPos ps s = none) : erasePos ps s = ps := by
  induction ps with
  | nil => rfl
  | cons e t ih =>
    by_cases he : e.1 = s
    · have : (s == e.1) = true := by simp [he]
      simp [lookupPos, List.lookup, this] at h
    · have hne : (s == e.1) = false := by
        simp [beq_eq_false_iff_ne, Ne.symm he]
      have ht : lookupPos t s = none := by
        simpa [lookupPos, List.lookup, hne] using h
      calc erasePos (e :: t) s = e :: erasePos t s := by
            simp [erasePos, List.filter_cons, he]
        _ = e :: t := by rw [ih ht]

/-- The common value identity behind both quantizers. -/
lemma dec_mul_pow_precision (s : Dec) :
    s.val * 10 ^ s.precision = ((stripZeros s.mant s.exp).1 : ℚ) := by
  have hv : ((stripZeros s.mant s.exp).1 : ℚ) / 10 ^ (stripZeros s.mant s.exp).2
      = (s.mant : ℚ) / 10 ^ s.exp := stripZeros_val s.exp s.mant
  have h10 : ((10 : ℚ) ^ (stripZeros s.mant s.exp).2) ≠ 0 := by positivity
  unfold Dec.val Dec.precision
  rw [← hv]
  field_simp

/-! ## Claims -/

/-- C9: for every raw quantity and positive step size (and every raw
price and positive tick size), `round_step_size` and `round_price`
round down to a multiple of the step that never exceeds the raw value
and stays within the decimal precision the step size implies. -/
theorem quantization_rounds_down (q : ℚ) (s : Dec) (p : ℚ) (t : Dec)
    (hs : 0 < s.val) (ht : 0 < t.val) :
    ((∃ k : ℤ, round_step_size q s = s.val * k) ∧ round_step_size q s ≤ q ∧
      (∃ z : ℤ, round_step_size q s * 10 ^ s.precision = (z : ℚ))) ∧
    ((∃ k : ℤ, round_price p t = t.val * k) ∧ round_price p t ≤ p ∧
      (∃ z : ℤ, round_price p t * 10 ^ t.precision = (z : ℚ))) := by
  have main : ∀ (q : ℚ) (s : Dec), 0 < s.val →
      (∃ k : ℤ, round_step_size q s = s.val * k) ∧ round_step_size q s ≤ q ∧
        (∃ z : ℤ, round_step_size q s * 10 ^ s.precision = (z : ℚ)) := by
    intro q s hs
    rw [round_step_size_eq]
    refine ⟨⟨⌊q / s.val⌋, rfl⟩, ?_, ?_⟩
    · have hf : (⌊q / s.val⌋ : ℚ) ≤ q / s.val := Int.floor_le _
      have := mul_le_mul_of_nonneg_left hf (le_of_lt hs)
      calc s.val * (⌊q / s.val⌋ : ℚ) ≤ s.val * (q / s.val) := this
        _ = q := by field_simp
    · refine ⟨(stripZeros s.mant s.exp).1 * ⌊q / s.val⌋, ?_⟩
      push_cast
      calc Dec.val s * (⌊q / Dec.val s⌋ : ℚ) * 10 ^ Dec.precision s
          = (Dec.val s * 10 ^ Dec.precision s) * (⌊q / Dec.val s⌋ : ℚ) := by ring
        _ = ((stripZeros s.mant s.exp).1 : ℚ) * (⌊q / Dec.val s⌋ : ℚ) := by
            rw [dec_mul_pow_precision]
  exact ⟨main q s hs, main p t ht⟩

theorem quantization_rounds_down_witness :
    0 < (Dec.mk 1 1).val ∧ 0 < (Dec.mk 25 2).val ∧
    (((∃ k : ℤ, round_step_size (7 / 3) (Dec.mk 1 1) = (Dec.mk 1 1).val * k) ∧
        round_step_size (7 / 3) (Dec.mk 1 1) ≤ 7 / 3 ∧
        (∃ z : ℤ, round_step_size (7 / 3) (Dec.mk 1 1) * 10 ^ (Dec.mk 1 1).precision
          = (z : ℚ))) ∧
      ((∃ k : ℤ, round_price (123 / 10) (Dec.mk 25 2) = (Dec.mk 25 2).val * k) ∧
        round_price (123 / 10) (Dec.mk 25 2) ≤ 123 / 10 ∧
        (∃ z : ℤ, round_price (123 / 10) (Dec.mk 25 2) * 10 ^ (Dec.mk 25 2).precision
          = (z : ℚ)))) :=
  ⟨by norm_num [Dec.val], by norm_num [Dec.val],
    quantization_rounds_down (7 / 3) (Dec.mk 1 1) (123 / 10) (Dec.mk 25 2)
      (by norm_num [Dec.val]) (by norm_num [Dec.val])⟩

/-- C4: once armed, the stored trailing stop never moves unfavorably in
one `update_trailing_stop` call: it stays armed, never decreases for a
long (`BUY`) position, and never increases for a short position. -/
lemma update_pos_trailing_mono (cfg : RiskConfig) (pos : Position) (price : ℚ)
    (atr : Option ℚ) (t : ℚ) (ht : pos.trailing_stop = some t) :
    ∃ t', (update_trailing_stop_pos cfg pos price atr).trailing_stop = some t' ∧
      (pos.side = "BUY" → t ≤ t') ∧ (pos.side ≠ "BUY" → t' ≤ t) := by
  by_cases hb : pos.side = "BUY"
  · simp only [update_trailing_stop_pos, hb, beq_self_eq_true, if_true, ht]
    split_ifs with h1 h2 h3 <;>
      first
        | exact ⟨_, rfl, fun _ => le_of_lt (by assumption), fun h => absurd rfl h⟩
        | exact ⟨t, rfl, fun _ => le_refl t, fun h => absurd rfl h⟩
        | exact ⟨t, ht, fun _ => le_refl t, fun h => absurd rfl h⟩
  · have hbeq : (pos.side == "BUY") = false := by
      simp [hb]
    simp only [update_trailing_stop_pos, hbeq, Bool.false_eq_true, if_false, ht]
    split_ifs with h1 h2 h3 <;>
      first
        | exact ⟨_, rfl, fun h => absurd h hb, fun _ => le_of_lt (by assumption)⟩
        | exact ⟨t, rfl, fun h => absurd h hb, fun _ => le_refl t⟩
        | exact ⟨t, ht, fun h => absurd h hb, fun _ => le_refl t⟩

theorem trailing_stop_monotonic (cfg : RiskConfig) (st : PMState) (symbol : String)
    (pos : Position) (price : ℚ) (atr : Option ℚ) (t : ℚ)
    (hpos : lookupPos st.positions symbol = some pos)
    (ht : pos.trailing_stop = some t) :
    ∃ t', lookupPos (update_trailing_stop cfg st symbol price atr).positions symbol
        = some (update_trailing_stop_pos cfg pos price atr) ∧
      (update_trailing_stop_pos cfg pos price atr).trailing_stop = some t' ∧
      (pos.side = "BUY" → t ≤ t') ∧ (pos.side ≠ "BUY" → t' ≤ t) := by
  obtain ⟨t', h1, h2, h3⟩ := update_pos_trailing_mono cfg pos price atr t ht
  refine ⟨t', ?_, h1, h2, h3⟩
  unfold update_trailing_stop
  rw [hpos]
  exact lookupPos_insert _ _ _

/-- Sample position used by concrete instances below. -/
def mkPos (sym side : String) (entry qty stop : ℚ) (trailing : Option ℚ) : Position :=
  { symbol := sym, side := side, entry_price := entry, quantity := qty,
    entry_time := ⟨0, 0⟩, order_id := some 1,
    highest_price := some entry, lowest_price := none,
    stop_loss := stop, trailing_stop := trailing, initial_stop_percent := 3 }

/-- A fresh daily record dated day 0. -/
def sampleDaily : DailyPnl := ⟨⟨0, 0⟩, 0, 0, 0, 0, 0, 0⟩

/-- The default risk configuration. -/
def sampleCfg : RiskConfig := ⟨5, 3, 3, "stop_new_entries", 0, 2, 3⟩

theorem trailing_stop_monotonic_witness :
    ∃ t', lookupPos (update_trailing_stop sampleCfg
          ⟨[("BTCUSDT", mkPos "BTCUSDT" "BUY" 100 1 95 (some 99))], sampleDaily, []⟩
          "BTCUSDT" 110 (some 2)).positions "BTCUSDT"
        = some (update_trailing_stop_pos sampleCfg
            (mkPos "BTCUSDT" "BUY" 100 1 95 (some 99)) 110 (some 2)) ∧
      (update_trailing_stop_pos sampleCfg
          (mkPos "BTCUSDT" "BUY" 100 1 95 (some 99)) 110 (some 2)).trailing_stop
        = some t' ∧
      ((mkPos "BTCUSDT" "BUY" 100 1 95 (some 99)).side = "BUY" → 99 ≤ t') ∧
      ((mkPos "BTCUSDT" "BUY" 100 1 95 (some 99)).side ≠ "BUY" → t' ≤ 99) :=
  trailing_stop_monotonic sampleCfg
    ⟨[("BTCUSDT", mkPos "BTCUSDT" "BUY" 100 1 95 (some 99))], sampleDaily, []⟩
    "BTCUSDT" (mkPos "BTCUSDT" "BUY" 100 1 95 (some 99)) 110 (some 2) 99
    (by decide) (by decide)

/-- C7 (corrected): `can_open_new_position` answers `false` exactly when
the symbol already has a position, the open-position count is at the
maximum, protection mode is active, or the daily loss limit is hit;
protection mode alone forces `false` for every symbol, but the
protection-mode *reason* is reported only when neither earlier check
fires. -/
theorem can_open_characterization (cfg : RiskConfig) (st : PMState) (symbol : String) :
    ((can_open_new_position cfg st symbol).1 = false ↔
      (lookupPos st.positions symbol).isSome = true ∨
      cfg.max_positions ≤ st.positions.length ∨
      is_in_protection_mode cfg st.daily = true ∨
      has_hit_daily_loss_limit cfg st.daily = true) ∧
    (is_in_protection_mode cfg st.daily = true →
      (can_open_new_position cfg st symbol).1 = false) ∧
    (is_in_protection_mode cfg st.daily = true →
      lookupPos st.positions symbol = none →
      st.positions.length < cfg.max_positions →
      can_open_new_position cfg st symbol = (false, .protectionMode)) := by
  refine ⟨?_, ?_, ?_⟩
  · unfold can_open_new_position
    split_ifs with h1 h2 h3 h4 <;> simp_all
  · intro hprot
    unfold can_open_new_position
    split_ifs <;> simp_all
  · intro hprot hlook hlen
    unfold can_open_new_position
    rw [hlook]
    simp only [Option.isSome_none, Bool.false_eq_true, if_false]
    rw [if_neg (not_le.mpr hlen), if_pos hprot]

theorem can_open_characterization_witness :
    can_open_new_position sampleCfg
        ⟨[], { sampleDaily with total_pnl := 5 }, []⟩ "BTCUSDT"
      = (false, .protectionMode) :=
  (can_open_characterization sampleCfg
      ⟨[], { sampleDaily with total_pnl := 5 }, []⟩ "BTCUSDT").2.2
    (by decide) (by decide) (by decide)

/-- C7 counterexample: with protection mode active but the position
count already at the configured maximum, `can_open_new_position`
reports the max-positions reason, not a protection-mode reason, so the
claim's "protection-mode reason for every symbol regardless of
open-position count" fails. -/
theorem can_open_protection_reason_cex :
    is_in_protection_mode ⟨1, 3, 3, "stop_new_entries", 0, 2, 3⟩
        ({ sampleDaily with total_pnl := 5 } : DailyPnl) = true ∧
    can_open_new_position ⟨1, 3, 3, "stop_new_entries", 0, 2, 3⟩
        ⟨[("ETHUSDT", mkPos "ETHUSDT" "BUY" 100 1 95 none)],
          { sampleDaily with total_pnl := 5 }, []⟩ "BTCUSDT"
      = (false, .maxPositionsReached) ∧
    CanOpenReason.maxPositionsReached ≠ CanOpenReason.protectionMode := by
  refine ⟨by decide, by decide, by decide⟩

/-- C10: removing a position with a falsy close price (absent or zero)
deletes and persists the ledger entry but leaves the daily risk state
and the trade-history log untouched, raising no error. -/
theorem remove_position_untruthy_close_frame (st : PMState) (symbol : String)
    (reason : Option String) (now : UtcTime) (cp : Option ℚ)
    (hcp : cp = none ∨ cp = some 0) :
    (remove_position st symbol cp reason now true).1.positions
        = erasePos st.positions symbol ∧
    lookupPos (remove_position st symbol cp reason now true).1.positions symbol
        = none ∧
    (remove_position st symbol cp reason now true).1.daily = st.daily ∧
    (remove_position st symbol cp reason now true).1.trade_log = st.trade_log ∧
    (remove_position st symbol cp reason now true).2 = none := by
  rcases hcp with rfl | rfl <;>
  · cases hlook : lookupPos st.positions symbol with
    | none =>
      simp [remove_position, hlook, erasePos_of_lookup_none st.positions symbol hlook]
    | some pos =>
      simp [remove_position, hlook, lookupPos_erase]

theorem remove_position_untruthy_close_frame_witness :
    (remove_position ⟨[("BTCUSDT", mkPos "BTCUSDT" "BUY" 100 1 95 none)],
        sampleDaily, []⟩ "BTCUSDT" (some 0) none ⟨1, 1⟩ true).1.positions
      = erasePos [("BTCUSDT", mkPos "BTCUSDT" "BUY" 100 1 95 none)] "BTCUSDT" ∧
    lookupPos (remove_position ⟨[("BTCUSDT", mkPos "BTCUSDT" "BUY" 100 1 95 none)],
        sampleDaily, []⟩ "BTCUSDT" (some 0) none ⟨1, 1⟩ true).1.positions "BTCUSDT"
      = none ∧
    (remove_position ⟨[("BTCUSDT", mkPos "BTCUSDT" "BUY" 100 1 95 none)],
        sampleDaily, []⟩ "BTCUSDT" (some 0) none ⟨1, 1⟩ true).1.daily = sampleDaily ∧
    (remove_position ⟨[("BTCUSDT", mkPos "BTCUSDT" "BUY" 100 1 95 none)],
        sampleDaily, []⟩ "BTCUSDT" (some 0) none ⟨1, 1⟩ true).1.trade_log = [] ∧
    (remove_position ⟨[("BTCUSDT", mkPos "BTCUSDT" "BUY" 100 1 95 none)],
        sampleDaily, []⟩ "BTCUSDT" (some 0) none ⟨1, 1⟩ true).2 = none :=
  remove_position_untruthy_close_frame
    ⟨[("BTCUSDT", mkPos "BTCUSDT" "BUY" 100 1 95 none)], sampleDaily, []⟩
    "BTCUSDT" none ⟨1, 1⟩ (some 0) (Or.inr rfl)

/-- C2: when the first balance report's total (free + locked) is below
a truthy instrument minimum, `close_position` returns the
`PHANTOM_POSITION` sentinel without ever submitting a sell order, and
the trading loop's handler then removes the ledger entry for the
symbol. -/
theorem close_phantom_no_sell (env : CloseEnv) (q : ℚ)
    (h1 : lotMin env.lot_filter ≠ 0)
    (h2 : env.balance1.total < lotMin env.lot_filter)
    (st : PMState) (symbol : String) (price : ℚ) (reason : String) (now : UtcTime) :
    close_position env q = (.phantom, false) ∧
    lookupPos (handle_close_result st symbol price (close_position env q).1
        reason now true).positions symbol = none := by
  have hc : close_position env q = (.phantom, false) := by
    unfold close_position
    rw [if_pos ⟨h1, h2⟩]
  refine ⟨hc, ?_⟩
  rw [hc]
  unfold handle_close_result remove_position
  cases hlook : lookupPos st.positions symbol with
  | none => simp [hlook]
  | some pos => simp [hlook, lookupPos_erase]

/-- C8: the quantity-adjustment cases of `close_position` after the lot
quantization: below-minimum with sufficient total balance yields `None`
(retry); below-minimum with insufficient total yields `BELOW_MIN_QTY`;
a non-positive quantity that clears the minimum check yields
`ZERO_QUANTITY` — none of the three submits a sell order. -/
theorem close_quantity_adjustment (env : CloseEnv) (free total quantity : ℚ)
    (l : LotFilter) (henv : env.lot_filter = some l) (hmin : l.minQty ≠ 0) :
    (round_step_size (if free < quantity * (99 / 100) then free else quantity)
        l.stepSize < l.minQty → l.minQty ≤ total →
      closeAfterBalance env free total quantity = (.nil, false)) ∧
    (round_step_size (if free < quantity * (99 / 100) then free else quantity)
        l.stepSize < l.minQty → total < l.minQty →
      closeAfterBalance env free total quantity = (.belowMin, false)) ∧
    (l.minQty ≤ round_step_size (if free < quantity * (99 / 100) then free else quantity)
        l.stepSize →
      round_step_size (if free < quantity * (99 / 100) then free else quantity)
        l.stepSize ≤ 0 →
      closeAfterBalance env free total quantity = (.zeroQty, false)) := by
  unfold closeAfterBalance
  rw [henv]
  simp only [hmin, if_false]
  refine ⟨?_, ?_, ?_⟩
  · intro hq ht
    rw [if_pos hq, if_pos ht]
  · intro hq ht
    rw [if_pos hq, if_neg (not_le.mpr ht)]
  · intro hq hz
    rw [if_neg (not_lt.mpr hq)]
    unfold closeFinishSell
    rw [if_pos hz]


lemma erasePos_idem (ps : List (String × Position)) (s : String) :
    erasePos (erasePos ps s) s = erasePos ps s :=
  erasePos_of_lookup_none _ _ (lookupPos_erase ps s)

lemma erasePos_insert (ps : List (String × Position)) (s : String) (p : Position) :
    erasePos (insertPos ps s p) s = erasePos ps s := by
  simp [insertPos, erasePos, List.filter_cons]

/-- C6 counterexample: the daily record below carries stale counters
from day 0; `remove_position` applied at noon of day 1 — strictly past
the reset boundary (`_should_reset_daily_pnl` answers `true` there) —
accumulates onto the stale counters instead of zeroing them first, so
the trade count becomes 6 rather than the 1 a boundary reset would
produce. -/
theorem daily_reset_update_cex :
    _should_reset_daily_pnl ⟨⟨0, 0⟩, 100, 0, 2, 5, 3, 2⟩ ⟨1, 12⟩ 0 = true ∧
    (remove_position ⟨[("BTCUSDT", mkPos "BTCUSDT" "BUY" 100 1 95 none)],
        ⟨⟨0, 0⟩, 100, 0, 2, 5, 3, 2⟩, []⟩
      "BTCUSDT" (some 110) (some "TP") ⟨1, 12⟩ true).1.daily.trades_count = 6 ∧
    (remove_position ⟨[("BTCUSDT", mkPos "BTCUSDT" "BUY" 100 1 95 none)],
        ⟨⟨0, 0⟩, 100, 0, 2, 5, 3, 2⟩, []⟩
      "BTCUSDT" (some 110) (some "TP") ⟨1, 12⟩ true).1.daily.reset_date = ⟨0, 0⟩ ∧
    ¬ (remove_position ⟨[("BTCUSDT", mkPos "BTCUSDT" "BUY" 100 1 95 none)],
        ⟨⟨0, 0⟩, 100, 0, 2, 5, 3, 2⟩, []⟩
      "BTCUSDT" (some 110) (some "TP") ⟨1, 12⟩ true).1.daily.trades_count = 1 := by
  refine ⟨by decide, ?_, ?_, ?_⟩ <;>
    norm_num [remove_position, lookupPos, List.lookup, mkPos, erasePos, insertPos]

/-- C6 (amended): the daily risk state is examined for a reset only
when loaded: counters are zeroed with a fresh timestamp exactly when
the stored reset date is strictly before today (UTC) and the current
hour is at or past the configured boundary; `remove_position` updates
never consult the boundary and never touch the reset timestamp. -/
theorem daily_reset_on_load_only (d : DailyPnl) (now : UtcTime) (h : ℕ) :
    ((d.reset_date.day < now.day ∧ h ≤ now.hour) →
      load_daily_pnl (some d) now h = _reset_daily_pnl now) ∧
    (¬ (d.reset_date.day < now.day ∧ h ≤ now.hour) →
      load_daily_pnl (some d) now h = d) ∧
    (∀ (st : PMState) (symbol : String) (cp : Option ℚ) (reason : Option String)
        (now2 : UtcTime) (so : Bool),
      (remove_position st symbol cp reason now2 so).1.daily.reset_date
        = st.daily.reset_date) := by
  refine ⟨?_, ?_, ?_⟩
  · rintro ⟨ha, hb⟩
    have : _should_reset_daily_pnl d now h = true := by
      simp [_should_reset_daily_pnl, ha, hb]
    simp [load_daily_pnl, this]
  · intro hneg
    have : _should_reset_daily_pnl d now h = false := by
      unfold _should_reset_daily_pnl
      split_ifs with h1 h2
      · exact absurd ⟨h1, h2⟩ hneg
      · rfl
      · rfl
    simp [load_daily_pnl, this]
  · intro st symbol cp reason now2 so
    unfold remove_position
    cases hlook : lookupPos st.positions symbol with
    | none => rfl
    | some pos =>
      cases cp with
      | none => cases so <;> rfl
      | some c =>
        by_cases hc : c = 0 <;> cases so <;> simp [hc]

theorem daily_reset_on_load_only_witness :
    load_daily_pnl (some ⟨⟨0, 0⟩, 100, 0, 2, 5, 3, 2⟩) ⟨1, 12⟩ 0
        = _reset_daily_pnl ⟨1, 12⟩ ∧
    (remove_position ⟨[], sampleDaily, []⟩ "BTCUSDT" none none ⟨1, 12⟩ true).1.daily.reset_date
        = sampleDaily.reset_date :=
  ⟨(daily_reset_on_load_only ⟨⟨0, 0⟩, 100, 0, 2, 5, 3, 2⟩ ⟨1, 12⟩ 0).1
      ⟨by decide, by decide⟩,
    (daily_reset_on_load_only ⟨⟨0, 0⟩, 100, 0, 2, 5, 3, 2⟩ ⟨1, 12⟩ 0).2.2
      ⟨[], sampleDaily, []⟩ "BTCUSDT" none none ⟨1, 12⟩ true⟩

/-- C3 counterexample: closing a position with a failing positions
save raises the error, yet the daily counters keep the close's update
(trade count 1, realized 10) and the trade-history record stays
appended — the in-memory effect is *not* rolled back to the pre-call
state. -/
theorem ledger_rollback_cex :
    (remove_position ⟨[("BTCUSDT", mkPos "BTCUSDT" "BUY" 100 1 95 none)],
        sampleDaily, []⟩ "BTCUSDT" (some 110) (some "TP") ⟨0, 1⟩ false).2.isSome
      = true ∧
    (remove_position ⟨[("BTCUSDT", mkPos "BTCUSDT" "BUY" 100 1 95 none)],
        sampleDaily, []⟩ "BTCUSDT" (some 110) (some "TP") ⟨0, 1⟩ false).1.daily.trades_count
      = 1 ∧
    (remove_position ⟨[("BTCUSDT", mkPos "BTCUSDT" "BUY" 100 1 95 none)],
        sampleDaily, []⟩ "BTCUSDT" (some 110) (some "TP") ⟨0, 1⟩ false).1.daily.realized_pnl
      = 10 ∧
    (remove_position ⟨[("BTCUSDT", mkPos "BTCUSDT" "BUY" 100 1 95 none)],
        sampleDaily, []⟩ "BTCUSDT" (some 110) (some "TP") ⟨0, 1⟩ false).1.trade_log.length
      = 1 ∧
    ¬ ((remove_position ⟨[("BTCUSDT", mkPos "BTCUSDT" "BUY" 100 1 95 none)],
          sampleDaily, []⟩ "BTCUSDT" (some 110) (some "TP") ⟨0, 1⟩ false).1.daily
        = sampleDaily) := by
  refine ⟨?_, ?_, ?_, ?_, ?_⟩ <;>
    norm_num [remove_position, lookupPos, List.lookup, mkPos, sampleDaily, erasePos,
      insertPos, DailyPnl.mk.injEq]

/-- C3 (amended): on a failed positions save, only the positions-map
mutation is rolled back — `remove_position` restores the entry (and
`add_position` deletes the inserted one, recovering the pre-call state
when the symbol was previously absent) and raises; the daily P&L
counters and the appended trade-history record are exactly those of a
successful close and are not rolled back. -/
theorem ledger_rollback_amended (st : PMState) (symbol : String) (pos : Position)
    (cp : Option ℚ) (reason : Option String) (now : UtcTime)
    (hpos : lookupPos st.positions symbol = some pos) :
    (remove_position st symbol cp reason now false).2.isSome = true ∧
    lookupPos (remove_position st symbol cp reason now false).1.positions symbol
      = some pos ∧
    (remove_position st symbol cp reason now false).1.daily
      = (remove_position st symbol cp reason now true).1.daily ∧
    (remove_position st symbol cp reason now false).1.trade_log
      = (remove_position st symbol cp reason now true).1.trade_log ∧
    (∀ (st2 : PMState) (cfg : RiskConfig) (ep q : ℚ) (side : String)
        (oid : Option ℕ) (isp : Option ℚ),
      lookupPos st2.positions symbol = none →
      (add_position cfg st2 symbol ep q side oid isp now false).1 = st2 ∧
      (add_position cfg st2 symbol ep q side oid isp now false).2.isSome = true) := by
  refine ⟨?_, ?_, ?_, ?_, ?_⟩
  · unfold remove_position
    rw [hpos]
    cases cp with
    | none => rfl
    | some c => by_cases hc : c = 0 <;> simp [hc]
  · unfold remove_position
    rw [hpos]
    cases cp with
    | none => simpa using lookupPos_insert _ _ _
    | some c =>
      by_cases hc : c = 0 <;> simp [hc, lookupPos_insert]
  · unfold remove_position
    rw [hpos]
    cases cp with
    | none => rfl
    | some c => by_cases hc : c = 0 <;> simp [hc]
  · unfold remove_position
    rw [hpos]
    cases cp with
    | none => rfl
    | some c => by_cases hc : c = 0 <;> simp [hc]
  · intro st2 cfg ep q side oid isp hnone
    unfold add_position
    refine ⟨?_, rfl⟩
    simp only [Bool.false_eq_true, if_false, erasePos_insert,
      erasePos_of_lookup_none st2.positions symbol hnone]

theorem ledger_rollback_amended_witness :
    (remove_position ⟨[("BTCUSDT", mkPos "BTCUSDT" "BUY" 100 1 95 none)],
        sampleDaily, []⟩ "BTCUSDT" (some 110) (some "TP") ⟨0, 1⟩ false).2.isSome
      = true ∧
    lookupPos (remove_position ⟨[("BTCUSDT", mkPos "BTCUSDT" "BUY" 100 1 95 none)],
        sampleDaily, []⟩ "BTCUSDT" (some 110) (some "TP") ⟨0, 1⟩ false).1.positions
        "BTCUSDT"
      = some (mkPos "BTCUSDT" "BUY" 100 1 95 none) ∧
    (add_position sampleCfg ⟨[], sampleDaily, []⟩ "BTCUSDT" 100 1 "BUY" (some 1)
        none ⟨0, 0⟩ false).1
      = ⟨[], sampleDaily, []⟩ := by
  have h := ledger_rollback_amended
    ⟨[("BTCUSDT", mkPos "BTCUSDT" "BUY" 100 1 95 none)], sampleDaily, []⟩
    "BTCUSDT" (mkPos "BTCUSDT" "BUY" 100 1 95 none) (some 110) (some "TP") ⟨0, 1⟩
    (by decide)
  exact ⟨h.1, h.2.1,
    (h.2.2.2.2 ⟨[], sampleDaily, []⟩ sampleCfg 100 1 "BUY" (some 1) none rfl).1⟩


theorem close_phantom_no_sell_witness :
    close_position ⟨⟨0, 0⟩, some ⟨1, 0, ⟨1, 0⟩⟩, ⟨0, 0⟩, none, none⟩ 1
      = (.phantom, false) ∧
    lookupPos (handle_close_result
        ⟨[("BTCUSDT", mkPos "BTCUSDT" "BUY" 100 1 95 none)], sampleDaily, []⟩
        "BTCUSDT" 100
        (close_position ⟨⟨0, 0⟩, some ⟨1, 0, ⟨1, 0⟩⟩, ⟨0, 0⟩, none, none⟩ 1).1
        "EXIT" ⟨1, 1⟩ true).positions "BTCUSDT" = none :=
  close_phantom_no_sell ⟨⟨0, 0⟩, some ⟨1, 0, ⟨1, 0⟩⟩, ⟨0, 0⟩, none, none⟩ 1
    (by norm_num [lotMin]) (by norm_num [lotMin, Balance.total])
    ⟨[("BTCUSDT", mkPos "BTCUSDT" "BUY" 100 1 95 none)], sampleDaily, []⟩
    "BTCUSDT" 100 "EXIT" ⟨1, 1⟩

theorem close_quantity_adjustment_witness :
    closeAfterBalance ⟨⟨0, 0⟩, some ⟨1, 0, ⟨1, 0⟩⟩, ⟨0, 0⟩, none, none⟩ 0 2 0
      = (.nil, false) ∧
    closeAfterBalance ⟨⟨0, 0⟩, some ⟨1, 0, ⟨1, 0⟩⟩, ⟨0, 0⟩, none, none⟩ 0 0 0
      = (.belowMin, false) ∧
    closeAfterBalance ⟨⟨0, 0⟩, some ⟨-1, 0, ⟨1, 0⟩⟩, ⟨0, 0⟩, none, none⟩ (-1) 5 0
      = (.zeroQty, false) :=
  ⟨(close_quantity_adjustment ⟨⟨0, 0⟩, some ⟨1, 0, ⟨1, 0⟩⟩, ⟨0, 0⟩, none, none⟩
      0 2 0 ⟨1, 0, ⟨1, 0⟩⟩ rfl (by norm_num)).1
      (by norm_num [round_step_size_eq, Dec.val]) (by norm_num),
    (close_quantity_adjustment ⟨⟨0, 0⟩, some ⟨1, 0, ⟨1, 0⟩⟩, ⟨0, 0⟩, none, none⟩
      0 0 0 ⟨1, 0, ⟨1, 0⟩⟩ rfl (by norm_num)).2.1
      (by norm_num [round_step_size_eq, Dec.val]) (by norm_num),
    (close_quantity_adjustment ⟨⟨0, 0⟩, some ⟨-1, 0, ⟨1, 0⟩⟩, ⟨0, 0⟩, none, none⟩
      (-1) 5 0 ⟨-1, 0, ⟨1, 0⟩⟩ rfl (by norm_num)).2.2
      (by norm_num [round_step_size_eq, Dec.val]) (by norm_num [round_step_size_eq, Dec.val])⟩

/-! ### C1/C5: the poll loop -/

lemma isCancelStatus_ne_filled {s : String} (h : isCancelStatus s = true) :
    (s == "FILLED") = false := by
  simp only [isCancelStatus, Bool.or_eq_true, beq_iff_eq] at h
  rcases h with (h | h) | h <;> simp [h]

lemma canceledBranch_pos (env : BuyEnv) (sym : String) (limit : ℚ) (oid : ℕ)
    (st : OrderStatus) :
    ∀ r, canceledBranch env sym limit oid st = some r → 0 < r.quantity := by
  intro r h
  simp only [canceledBranch] at h
  split_ifs at h <;> cases h <;> (dsimp only; assumption)

lemma timeoutTail_pos (env : BuyEnv) (sym : String) (limit : ℚ) (oid : ℕ) :
    ∀ r, timeoutTail env sym limit oid = some r → 0 < r.quantity := by
  intro r h
  simp only [timeoutTail] at h
  cases hfs : env.final_status with
  | none =>
    rw [hfs] at h
    split_ifs at h <;> cases h <;> (dsimp only; assumption)
  | some fs =>
    rw [hfs] at h
    dsimp only at h
    split_ifs at h <;> cases h <;> (dsimp only; assumption)

lemma pollLoop_pos (env : BuyEnv) (sym : String) (limit : ℚ) (oid : ℕ) :
    ∀ L : List (Option OrderStatus),
      (∀ st : OrderStatus, some st ∈ L → st.status = "FILLED" → 0 < st.executedQty) →
      ∀ r, pollLoop env sym limit oid L = some r → 0 < r.quantity := by
  intro L
  induction L with
  | nil => intro _ r h; exact timeoutTail_pos env sym limit oid r h
  | cons o rest ih =>
    intro hL r h
    cases o with
    | none =>
      rw [pollLoop] at h
      exact ih (fun st hm => hL st (List.mem_cons_of_mem _ hm)) r h
    | some st =>
      rw [pollLoop] at h
      cases hfb : (st.status == "FILLED") with
      | true =>
        rw [hfb] at h
        simp only [if_true] at h
        obtain rfl := Option.some.inj h
        exact hL st (List.mem_cons_self _ _) (by simpa [beq_iff_eq] using hfb)
      | false =>
        rw [hfb] at h
        simp only [Bool.false_eq_true, if_false] at h
        cases hcb : isCancelStatus st.status with
        | true =>
          rw [hcb] at h
          simp only [if_true] at h
          exact canceledBranch_pos env sym limit oid st r h
        | false =>
          rw [hcb] at h
          simp only [Bool.false_eq_true, if_false] at h
          exact ih (fun s hm => hL s (List.mem_cons_of_mem _ hm)) r h

/-- C1 counterexample: a poll response with status `FILLED` but
`executedQty = 0` (and a nonzero fill-average) makes `place_limit_buy`
return a reconciled tuple whose executed quantity is 0 — a non-nil
result that is not backed by any positive executed quantity. -/
theorem place_limit_buy_zero_qty_cex :
    ∃ r, place_limit_buy
        ⟨some 1000, some ⟨⟨1, 0⟩, 0⟩, some ⟨1, 0, ⟨1, 0⟩⟩, some 7,
          [some ⟨"FILLED", 0, [⟨2, 1⟩], 0⟩], none, none, []⟩
        "BTCUSDT" 998 = some r ∧ ¬ 0 < r.quantity := by
  refine ⟨⟨"BTCUSDT", 2, 0, 7⟩, ?_, by norm_num⟩
  norm_num [place_limit_buy, calculate_quantity, pollLoop, statusAvgPrice, fillsAvg,
    round_price_eq, round_step_size_eq, Dec.val, isCancelStatus]

/-- C1 (amended): whenever every `FILLED` poll response carries a
positive executed quantity, `place_limit_buy` returns either `none` or
a tuple with strictly positive quantity; every ambiguous path
(terminal status with zero executed quantity, unreachable status,
timeout) returns a tuple only when trade evidence yields a positive
quantity.  (The `FILLED` branch itself trusts the reported
`executedQty` unconditionally, which the counterexample exploits.) -/
theorem place_limit_buy_positive_qty (env : BuyEnv) (sym : String) (amt : ℚ)
    (hf : ∀ st : OrderStatus, some st ∈ env.polls → st.status = "FILLED" →
      0 < st.executedQty) :
    ∀ r, place_limit_buy env sym amt = some r → 0 < r.quantity := by
  intro r h
  obtain ⟨cp, pf, lf, oa, polls, rs, fs, ta⟩ := env
  cases cp with
  | none => cases h
  | some p =>
    cases pf with
    | none =>
      simp only [place_limit_buy] at h
      split_ifs at h <;> cases h
    | some pfv =>
      rcases hq : calculate_quantity lf (round_price (p * (998 / 1000)) pfv.tickSize)
          amt with _ | q
      · simp only [place_limit_buy, hq] at h
        split_ifs at h <;> cases h
      · cases oa with
        | none =>
          simp only [place_limit_buy, hq] at h
          split_ifs at h <;> cases h
        | some oid =>
          simp only [place_limit_buy, hq] at h
          split_ifs at h <;>
            first
              | cases h
              | exact pollLoop_pos _ sym _ oid polls hf r h

theorem place_limit_buy_positive_qty_witness :
    place_limit_buy
        ⟨some 1000, some ⟨⟨1, 0⟩, 0⟩, some ⟨1, 0, ⟨1, 0⟩⟩, some 7,
          [some ⟨"FILLED", 1, [⟨2, 1⟩], 0⟩], none, none, []⟩
        "BTCUSDT" 998 = some ⟨"BTCUSDT", 2, 1, 7⟩ ∧
    0 < (Reconciled.mk "BTCUSDT" 2 1 7).quantity := by
  have heval : place_limit_buy
      ⟨some 1000, some ⟨⟨1, 0⟩, 0⟩, some ⟨1, 0, ⟨1, 0⟩⟩, some 7,
        [some ⟨"FILLED", 1, [⟨2, 1⟩], 0⟩], none, none, []⟩
      "BTCUSDT" 998 = some ⟨"BTCUSDT", 2, 1, 7⟩ := by
    norm_num [place_limit_buy, calculate_quantity, pollLoop, statusAvgPrice, fillsAvg,
      round_price_eq, round_step_size_eq, Dec.val, isCancelStatus]
  refine ⟨heval, ?_⟩
  exact place_limit_buy_positive_qty
    ⟨some 1000, some ⟨⟨1, 0⟩, 0⟩, some ⟨1, 0, ⟨1, 0⟩⟩, some 7,
      [some ⟨"FILLED", 1, [⟨2, 1⟩], 0⟩], none, none, []⟩
    "BTCUSDT" 998
    (by
      intro st hm _
      simp only [List.mem_singleton, Option.some.injEq] at hm
      subst hm
      norm_num)
    ⟨"BTCUSDT", 2, 1, 7⟩ heval

lemma pollLoop_skip (env : BuyEnv) (sym : String) (limit : ℚ) (oid : ℕ)
    (pre L : List (Option OrderStatus))
    (hpre : ∀ s : OrderStatus, some s ∈ pre →
      s.status ≠ "FILLED" ∧ isCancelStatus s.status = false) :
    pollLoop env sym limit oid (pre ++ L) = pollLoop env sym limit oid L := by
  induction pre with
  | nil => rfl
  | cons o t ih =>
    cases o with
    | none =>
      rw [List.cons_append, pollLoop]
      exact ih (fun s hm => hpre s (List.mem_cons_of_mem _ hm))
    | some s =>
      have hs := hpre s (List.mem_cons_self _ _)
      have hb : (s.status == "FILLED") = false := by
        simp [beq_eq_false_iff_ne, hs.1]
      rw [List.cons_append, pollLoop, hb, hs.2]
      simp only [Bool.false_eq_true, if_false]
      exact ih (fun x hm => hpre x (List.mem_cons_of_mem _ hm))

/-- C5: if polling (after any run of unavailable or non-terminal
responses) hits `CANCELED/REJECTED/EXPIRED` with executed quantity 0,
and the one re-check still reports 0, the loop consults the
trade-history reconciler: with matching trades of positive total
quantity it returns the trades' total quantity at their volume-weighted
average price; otherwise it returns `None` (no fill, not an error). -/
theorem late_fill_reconciliation (env : BuyEnv) (sym : String) (limit : ℚ) (oid : ℕ)
    (pre rest : List (Option OrderStatus)) (st : OrderStatus)
    (hpre : ∀ s : OrderStatus, some s ∈ pre →
      s.status ≠ "FILLED" ∧ isCancelStatus s.status = false)
    (hst : isCancelStatus st.status = true)
    (hq0 : st.executedQty = 0)
    (hretry : ∀ r : OrderStatus, env.retry_status = some r → r.executedQty = 0) :
    (0 < (_calculate_avg_price_from_trades
        (_get_trades_for_order_with_retry env.trade_attempts oid) limit).2 →
      pollLoop env sym limit oid (pre ++ some st :: rest)
        = some ⟨sym,
            (_calculate_avg_price_from_trades
              (_get_trades_for_order_with_retry env.trade_attempts oid) limit).1,
            (_calculate_avg_price_from_trades
              (_get_trades_for_order_with_retry env.trade_attempts oid) limit).2,
            oid⟩) ∧
    (¬ 0 < (_calculate_avg_price_from_trades
        (_get_trades_for_order_with_retry env.trade_attempts oid) limit).2 →
      pollLoop env sym limit oid (pre ++ some st :: rest) = none) := by
  rw [pollLoop_skip env sym limit oid pre _ hpre, pollLoop,
    isCancelStatus_ne_filled hst, hst]
  simp only [Bool.false_eq_true, if_false, if_true]
  have hexec1 : (match env.retry_status with
      | some r => r.executedQty
      | none => st.executedQty) = 0 := by
    cases hrs : env.retry_status with
    | none => exact hq0
    | some r => exact hretry r hrs
  unfold canceledBranch
  rw [if_pos hq0, hexec1, if_pos rfl]
  constructor
  · intro hpos
    dsimp only
    split_ifs with he
    · exfalso
      have hnil : _get_trades_for_order_with_retry env.trade_attempts oid = [] := by
        simpa [List.isEmpty_iff] using he
      rw [hnil] at hpos
      simp [_calculate_avg_price_from_trades] at hpos
    · rfl
  · intro hneg
    dsimp only
    split_ifs with he
    · rfl
    · rfl

theorem late_fill_reconciliation_witness :
    pollLoop ⟨some 1000, some ⟨⟨1, 0⟩, 0⟩, some ⟨1, 0, ⟨1, 0⟩⟩, some 7,
        [none, some ⟨"NEW", 0, [], 0⟩, some ⟨"CANCELED", 0, [], 0⟩],
        some ⟨"CANCELED", 0, [], 0⟩, none, [[], [⟨7, 30000, 1⟩]]⟩
      "BTCUSDT" 998 7
      ([none, some ⟨"NEW", 0, [], 0⟩] ++ some ⟨"CANCELED", 0, [], 0⟩ :: [])
      = some ⟨"BTCUSDT", 30000, 1, 7⟩ := by
  have h := (late_fill_reconciliation
    ⟨some 1000, some ⟨⟨1, 0⟩, 0⟩, some ⟨1, 0, ⟨1, 0⟩⟩, some 7,
      [none, some ⟨"NEW", 0, [], 0⟩, some ⟨"CANCELED", 0, [], 0⟩],
      some ⟨"CANCELED", 0, [], 0⟩, none, [[], [⟨7, 30000, 1⟩]]⟩
    "BTCUSDT" 998 7 [none, some ⟨"NEW", 0, [], 0⟩] [] ⟨"CANCELED", 0, [], 0⟩
    (by
      intro s hm
      have hs : s = ⟨"NEW", 0, [], 0⟩ := by simpa using hm
      subst hs
      exact ⟨by decide, by decide⟩)
    (by decide) rfl
    (by intro r hr; cases Option.some.inj hr; rfl)).1
  have heval : (_calculate_avg_price_from_trades
      (_get_trades_for_order_with_retry [[], [⟨7, 30000, 1⟩]] 7) 998)
      = (30000, 1) := by
    norm_num [_get_trades_for_order_with_retry, _calculate_avg_price_from_trades,
      List.filter]
  rw [heval] at h
  exact h (by norm_num)

end Bot
